import Mathlib

/-! dialogflow-webhook: the example HTTP handler

A shallow embedding of `examples/http/main.go`.

* `webhookWith` is the handler `webhook`, statement by statement, over the code it calls
  and main.go does not contain (`Library`); `webhook` is the handler with the library
  linked in. `webhookOn` is the same handler started with its variables `err`, `dfr`, `p`
  in an arbitrary state, over calls that write through the storage they are given.
* `ResponseWriter` is the `http.ResponseWriter` the handler writes to: the header map, the
  status line with the headers sent along with it, and the body.
* `Decode` is `json.NewDecoder(req.Body).Decode(&dfr)`: a scanner that reads the first JSON
  value of the body and leaves the rest unread, followed by the unmarshalling into the nil
  pointer `dfr`.
* The request and fulfillment types of package `df`, its accessors `GetParams` and
  `GetContext` and its JSON forms are not part of main.go; they are modelled from the
  specification, and say so.

A run of the handler is recorded as the final state of the response writer, the list of
calls made, and whether the run was cut short by a panic.
-/

set_option autoImplicit false
set_option maxRecDepth 100000

namespace Dialogflow

/-! ## JSON values and the streaming scanner (`encoding/json`) -/

/-- A JSON value. Numbers keep their literal text, as `json.Number` does. -/
inductive JSON where
  | null
  | bool (b : Bool)
  | number (lit : String)
  | string (s : String)
  | array (elems : List JSON)
  | object (members : List (String × JSON))

/-- Why a scan stopped: the text is not JSON, or the scanner's recursion budget ran out. -/
inductive ScanError where
  | invalid
  | outOfFuel
  deriving DecidableEq, Repr

/-- The four JSON whitespace bytes (`isSpace` in scanner.go). -/
def isSpace (c : Char) : Bool :=
  c.toNat = 32 || c.toNat = 9 || c.toNat = 13 || c.toNat = 10

/-- Drop leading JSON whitespace. -/
def skipSpace : List Char → List Char
  | [] => []
  | c :: cs => if isSpace c then skipSpace cs else c :: cs

/-- A decimal digit. -/
def isDigit (c : Char) : Bool := 48 ≤ c.toNat && c.toNat ≤ 57

/-- Split off the longest run of leading digits. -/
def takeDigits : List Char → List Char × List Char
  | [] => ([], [])
  | c :: cs =>
    if isDigit c then ((takeDigits cs).1.cons c, (takeDigits cs).2) else ([], c :: cs)

/-- The integer part of a number: `0`, or a non-zero digit followed by digits. -/
def scanInt : List Char → Option (List Char × List Char)
  | [] => none
  | c :: cs =>
    if c.toNat = 48 then some ([c], cs)
    else if isDigit c then some (c :: (takeDigits cs).1, (takeDigits cs).2)
    else none

/-- The optional fraction: `.` followed by at least one digit. -/
def scanFrac : List Char → Option (List Char × List Char)
  | [] => some ([], [])
  | c :: cs =>
    if c.toNat = 46 then
      match takeDigits cs with
      | ([], _) => none
      | (ds, rest) => some (c :: ds, rest)
    else some ([], c :: cs)

/-- The digits of an exponent, after the optional sign. -/
def scanExpDigits (pre : List Char) (cs : List Char) : Option (List Char × List Char) :=
  match takeDigits cs with
  | ([], _) => none
  | (ds, rest) => some (pre ++ ds, rest)

/-- The optional exponent: `e` or `E`, an optional sign, at least one digit. -/
def scanExp : List Char → Option (List Char × List Char)
  | [] => some ([], [])
  | c :: cs =>
    if c.toNat = 101 || c.toNat = 69 then
      match cs with
      | [] => none
      | s :: cs2 =>
        if s.toNat = 43 || s.toNat = 45 then scanExpDigits [c, s] cs2
        else scanExpDigits [c] (s :: cs2)
    else some ([], c :: cs)

/-- A number literal without sign: integer part, optional fraction, optional exponent. -/
def scanUnsigned (cs : List Char) : Option (List Char × List Char) :=
  match scanInt cs with
  | none => none
  | some (i, r1) =>
    match scanFrac r1 with
    | none => none
    | some (f, r2) =>
      match scanExp r2 with
      | none => none
      | some (e, r3) => some (i ++ f ++ e, r3)

/-- A number literal: an optional minus and an unsigned literal. -/
def scanNumber : List Char → Option (List Char × List Char)
  | [] => none
  | c :: cs =>
    if c.toNat = 45 then
      match scanUnsigned cs with
      | none => none
      | some (lit, r) => some (c :: lit, r)
    else scanUnsigned (c :: cs)

/-- The value of a hexadecimal digit. -/
def hexVal (c : Char) : Option Nat :=
  let n := c.toNat
  if 48 ≤ n ∧ n ≤ 57 then some (n - 48)
  else if 97 ≤ n ∧ n ≤ 102 then some (n - 87)
  else if 65 ≤ n ∧ n ≤ 70 then some (n - 55)
  else none

/-- Four hexadecimal digits read as a number (`getu4` in decode.go, after the `\u`). -/
def getu4 : List Char → Option Nat
  | a :: b :: c :: d :: _ =>
    match hexVal a, hexVal b, hexVal c, hexVal d with
    | some x, some y, some z, some w => some (((x * 16 + y) * 16 + z) * 16 + w)
    | _, _, _, _ => none
  | _ => none

/-- The Unicode replacement character, written for an unpaired surrogate. -/
def replacementChar : Char := Char.ofNat 65533

/-- The low half of a surrogate pair written as a `\u` escape at the head of the text. -/
def lowSurrogate : List Char → Option Nat
  | b :: u :: cs =>
    if b.toNat = 92 ∧ u.toNat = 117 then
      match getu4 cs with
      | some lo => if 56320 ≤ lo ∧ lo < 57344 then some lo else none
      | none => none
    else none
  | _ => none

/-- Decode a `\u` escape whose four digits gave `hi`; `rest` is the text after them.
Returns the rune and the text left. -/
def decodeU (hi : Nat) (rest : List Char) : Char × List Char :=
  if 55296 ≤ hi ∧ hi < 57344 then
    if hi < 56320 then
      match lowSurrogate rest with
      | some lo => (Char.ofNat (65536 + (hi - 55296) * 1024 + (lo - 56320)), rest.drop 6)
      | none => (replacementChar, rest)
    else (replacementChar, rest)
  else (Char.ofNat hi, rest)

/-- The character a one-letter escape stands for. -/
def simpleEscape (c : Char) : Option Char :=
  let n := c.toNat
  if n = 34 ∨ n = 92 ∨ n = 47 then some c
  else if n = 98 then some (Char.ofNat 8)
  else if n = 102 then some (Char.ofNat 12)
  else if n = 110 then some (Char.ofNat 10)
  else if n = 114 then some (Char.ofNat 13)
  else if n = 116 then some (Char.ofNat 9)
  else none

/-- Scan a string body, the opening quote already consumed, up to and including the
closing quote; the unquoted text is accumulated in reverse in `acc`. -/
def scanString : Nat → List Char → List Char → Except ScanError (String × List Char)
  | 0, _, _ => .error .outOfFuel
  | _ + 1, [], _ => .error .invalid
  | fuel + 1, c :: cs, acc =>
    if c.toNat = 34 then .ok (String.mk acc.reverse, cs)
    else if c.toNat = 92 then
      match cs with
      | [] => .error .invalid
      | e :: cs2 =>
        if e.toNat = 117 then
          match getu4 cs2 with
          | none => .error .invalid
          | some hi =>
            scanString fuel (decodeU hi (cs2.drop 4)).2 ((decodeU hi (cs2.drop 4)).1 :: acc)
        else
          match simpleEscape e with
          | none => .error .invalid
          | some x => scanString fuel cs2 (x :: acc)
    else if c.toNat < 32 then .error .invalid
    else scanString fuel cs (c :: acc)

/-- Consume the literal `lit` (for `true`, `false`, `null`). -/
def scanLiteral (lit : List Char) (cs : List Char) : Option (List Char) :=
  if cs.take lit.length = lit then some (cs.drop lit.length) else none

/-- The deepest nesting of arrays and objects the scanner accepts (`maxNestingDepth` in
scanner.go). -/
def maxNestingDepth : Nat := 10000

mutual
/-- Scan one JSON value inside `depth` open arrays and objects, leading whitespace allowed;
returns the value and the unread text. Opening an array or an object beyond the nesting
limit is an error. -/
def parseValueAt : Nat → Nat → List Char → Except ScanError (JSON × List Char)
  | _, 0, _ => .error .outOfFuel
  | depth, fuel + 1, cs =>
    match skipSpace cs with
    | [] => .error .invalid
    | c :: rest =>
      if c.toNat = 123 then
        if maxNestingDepth ≤ depth then .error .invalid
        else
          match skipSpace rest with
          | [] => .error .invalid
          | d :: rest2 =>
            if d.toNat = 125 then .ok (JSON.object [], rest2)
            else
              match parseMembersAt (depth + 1) fuel (d :: rest2) with
              | .error e => .error e
              | .ok (ms, r) => .ok (JSON.object ms, r)
      else if c.toNat = 91 then
        if maxNestingDepth ≤ depth then .error .invalid
        else
          match skipSpace rest with
          | [] => .error .invalid
          | d :: rest2 =>
            if d.toNat = 93 then .ok (JSON.array [], rest2)
            else
              match parseElemsAt (depth + 1) fuel (d :: rest2) with
              | .error e => .error e
              | .ok (es, r) => .ok (JSON.array es, r)
      else if c.toNat = 34 then
        match scanString (rest.length + 1) rest [] with
        | .error e => .error e
        | .ok (s, r) => .ok (JSON.string s, r)
      else if c.toNat = 116 then
        match scanLiteral "true".toList (c :: rest) with
        | none => .error .invalid
        | some r => .ok (JSON.bool true, r)
      else if c.toNat = 102 then
        match scanLiteral "false".toList (c :: rest) with
        | none => .error .invalid
        | some r => .ok (JSON.bool false, r)
      else if c.toNat = 110 then
        match scanLiteral "null".toList (c :: rest) with
        | none => .error .invalid
        | some r => .ok (JSON.null, r)
      else
        match scanNumber (c :: rest) with
        | none => .error .invalid
        | some (lit, r) => .ok (JSON.number (String.mk lit), r)

/-- Scan the members of a non-empty object, from its first key to the closing brace. -/
def parseMembersAt : Nat → Nat → List Char →
    Except ScanError (List (String × JSON) × List Char)
  | _, 0, _ => .error .outOfFuel
  | depth, fuel + 1, cs =>
    match skipSpace cs with
    | [] => .error .invalid
    | q :: rest =>
      if q.toNat = 34 then
        match scanString (rest.length + 1) rest [] with
        | .error e => .error e
        | .ok (k, r1) =>
          match skipSpace r1 with
          | [] => .error .invalid
          | colon :: r2 =>
            if colon.toNat = 58 then
              match parseValueAt depth fuel r2 with
              | .error e => .error e
              | .ok (v, r3) =>
                match skipSpace r3 with
                | [] => .error .invalid
                | sep :: r4 =>
                  if sep.toNat = 125 then .ok ([(k, v)], r4)
                  else if sep.toNat = 44 then
                    match parseMembersAt depth fuel r4 with
                    | .error e => .error e
                    | .ok (ms, r5) => .ok ((k, v) :: ms, r5)
                  else .error .invalid
            else .error .invalid
      else .error .invalid

/-- Scan the elements of a non-empty array, from its first element to the closing bracket. -/
def parseElemsAt : Nat → Nat → List Char → Except ScanError (List JSON × List Char)
  | _, 0, _ => .error .outOfFuel
  | depth, fuel + 1, cs =>
    match parseValueAt depth fuel cs with
    | .error e => .error e
    | .ok (v, r1) =>
      match skipSpace r1 with
      | [] => .error .invalid
      | sep :: r2 =>
        if sep.toNat = 93 then .ok ([v], r2)
        else if sep.toNat = 44 then
          match parseElemsAt depth fuel r2 with
          | .error e => .error e
          | .ok (vs, r3) => .ok (v :: vs, r3)
        else .error .invalid
end

/-- Scan one JSON value at the top level of a text. -/
def parseValue (fuel : Nat) (cs : List Char) : Except ScanError (JSON × List Char) :=
  parseValueAt 0 fuel cs

/-- The scanner's recursion budget for a text, enough for every nesting the text can hold. -/
def scanBudget (cs : List Char) : Nat := 2 * cs.length + 1

/-- The first JSON value of a byte stream, as `(*json.Decoder).Decode` reads it: leading
whitespace is skipped, one value is scanned, and whatever follows it is left unread. -/
def readValue (body : String) : Except ScanError JSON :=
  match parseValue (scanBudget body.toList) body.toList with
  | .error e => .error e
  | .ok (v, _) => .ok v

/-! ## The request model (package `df`)

The types are modelled from the specification; the unmarshalling into them follows
`encoding/json`: members are processed left to right, a key selects a field by its name
with or without regard to case, a member whose key selects no field is skipped, `null`
leaves a struct or a string as it is and resets a map or a slice, and a value of the wrong
kind is a type error. -/

/-- A string-keyed set of JSON values. -/
abbrev ParamMap := List (String × JSON)

/-- Store `v` under `k`, replacing an earlier entry for `k`. -/
def ParamMap.set (k : String) (v : JSON) : ParamMap → ParamMap
  | [] => [(k, v)]
  | (k1, v1) :: m => if k1 = k then (k, v) :: m else (k1, v1) :: ParamMap.set k v m

/-- The value stored under `k`, if any. -/
def ParamMap.get (k : String) : ParamMap → Option JSON
  | [] => none
  | (k1, v1) :: m => if k1 = k then some v1 else ParamMap.get k m

/-- Modelled from the spec: the declaration of `df.Context` is missing; a context is a
name and a string-keyed set of parameters. -/
structure Context where
  name : String
  parameters : ParamMap

/-- Modelled from the spec: the declaration of `df.QueryResult` is missing; it is the
nested part of a request, with the top-level parameters and the output contexts. -/
structure QueryResult where
  parameters : ParamMap
  outputContexts : List Context

/-- Modelled from the spec: the declaration of `df.Request` is missing; of its fields only
the nested `queryResult` is described. -/
structure Request where
  queryResult : QueryResult

/-- The zero value of `df.Context`. -/
def Context.zero : Context := { name := "", parameters := [] }

/-- The zero value of `df.Request`. -/
def Request.zero : Request := { queryResult := { parameters := [], outputContexts := [] } }

/-- The folded form of a character of an object key (`foldRune` in fold.go), for matching
against field names written in ASCII letters: a lower-case ASCII letter becomes upper case,
and the long s and the Kelvin sign fold to `S` and `K`. -/
def foldChar (c : Char) : Char :=
  let n := c.toNat
  if 97 ≤ n ∧ n ≤ 122 then Char.ofNat (n - 32)
  else if n = 383 then Char.ofNat 83
  else if n = 8490 then Char.ofNat 75
  else c

/-- The folded form of a name (`foldName` in fold.go). -/
def foldName (s : String) : List Char := s.toList.map foldChar

/-- Whether the object key `k` selects the struct field with JSON name `field`: the names
are equal, or equal after folding. -/
def keyIs (field k : String) : Bool :=
  k = field || foldName k = foldName field

/-- Unmarshal a JSON value into a string-keyed map: `null` resets the map, an object adds its
members to it (a repeated key keeps the last value), anything else is a type error. -/
def unmarshalMap (m : ParamMap) : JSON → Except String ParamMap
  | .null => .ok []
  | .object ms => .ok (ms.foldl (fun acc kv => ParamMap.set kv.1 kv.2 acc) m)
  | _ => .error "json: cannot unmarshal into Go value of type map"

/-- Unmarshal a JSON value into a string field: `null` leaves it, a string sets it. -/
def unmarshalString (s : String) : JSON → Except String String
  | .null => .ok s
  | .string t => .ok t
  | _ => .error "json: cannot unmarshal into Go value of type string"

/-- Unmarshal the members of an object into a `df.Context`, left to right. -/
def unmarshalContextMembers (c : Context) : List (String × JSON) → Except String Context
  | [] => .ok c
  | (k, v) :: ms =>
    if keyIs "name" k then
      match unmarshalString c.name v with
      | .error e => .error e
      | .ok n => unmarshalContextMembers { c with name := n } ms
    else if keyIs "parameters" k then
      match unmarshalMap c.parameters v with
      | .error e => .error e
      | .ok m => unmarshalContextMembers { c with parameters := m } ms
    else unmarshalContextMembers c ms

/-- Unmarshal a JSON value into a `df.Context`. -/
def unmarshalContext (c : Context) : JSON → Except String Context
  | .null => .ok c
  | .object ms => unmarshalContextMembers c ms
  | _ => .error "json: cannot unmarshal into Go value of type df.Context"

/-- Unmarshal the elements of an array into fresh contexts. -/
def unmarshalContextElems : List JSON → Except String (List Context)
  | [] => .ok []
  | v :: vs =>
    match unmarshalContext Context.zero v with
    | .error e => .error e
    | .ok c =>
      match unmarshalContextElems vs with
      | .error e => .error e
      | .ok cs => .ok (c :: cs)

/-- Unmarshal a JSON value into a slice of contexts: `null` gives the nil slice, an array
replaces the slice. -/
def unmarshalContexts : JSON → Except String (List Context)
  | .null => .ok []
  | .array vs => unmarshalContextElems vs
  | _ => .error "json: cannot unmarshal into Go value of type df.Contexts"

/-- Unmarshal the members of an object into a `df.QueryResult`, left to right. -/
def unmarshalQueryResultMembers (q : QueryResult) :
    List (String × JSON) → Except String QueryResult
  | [] => .ok q
  | (k, v) :: ms =>
    if keyIs "parameters" k then
      match unmarshalMap q.parameters v with
      | .error e => .error e
      | .ok m => unmarshalQueryResultMembers { q with parameters := m } ms
    else if keyIs "outputContexts" k then
      match unmarshalContexts v with
      | .error e => .error e
      | .ok cs => unmarshalQueryResultMembers { q with outputContexts := cs } ms
    else unmarshalQueryResultMembers q ms

/-- Unmarshal a JSON value into a `df.QueryResult`. -/
def unmarshalQueryResult (q : QueryResult) : JSON → Except String QueryResult
  | .null => .ok q
  | .object ms => unmarshalQueryResultMembers q ms
  | _ => .error "json: cannot unmarshal into Go value of type df.QueryResult"

/-- Unmarshal the members of an object into a `df.Request`, left to right; a member
under another key is skipped. -/
def unmarshalRequestMembers (r : Request) : List (String × JSON) → Except String Request
  | [] => .ok r
  | (k, v) :: ms =>
    if keyIs "queryResult" k then
      match unmarshalQueryResult r.queryResult v with
      | .error e => .error e
      | .ok q => unmarshalRequestMembers { r with queryResult := q } ms
    else unmarshalRequestMembers r ms

/-- Unmarshal a JSON value into the nil pointer `dfr`: `null` leaves it nil, an object
allocates a request and fills it, anything else is a type error. -/
def unmarshalRequestPtr : JSON → Except String (Option Request)
  | .null => .ok none
  | .object ms =>
    match unmarshalRequestMembers Request.zero ms with
    | .error e => .error e
    | .ok r => .ok (some r)
  | _ => .error "json: cannot unmarshal into Go value of type df.Request"

/-- The call `json.NewDecoder(req.Body).Decode(&dfr)` on a request body. -/
def Decode (body : String) : Except String (Option Request) :=
  match readValue body with
  | .error _ => .error "json: invalid or truncated input"
  | .ok v => unmarshalRequestPtr v

/-! ## The handler's target shape and the library calls -/

/-- The struct `params` of main.go: `city` and `gender` are strings, `age` is an `int`. -/
structure params where
  City : String
  Gender : String
  Age : Int
  deriving DecidableEq, Repr

/-- The zero value of `params`, which `var p params` declares. -/
def params.zero : params := { City := "", Gender := "", Age := 0 }

/-- The result of a call that may return normally, return an error, or panic. -/
inductive CallResult (α : Type) where
  | ok (a : α)
  | err (msg : String)
  | panic

/-- The value of a run of decimal digits, most significant first. -/
def digitsValue (acc : Nat) : List Char → Option Nat
  | [] => some acc
  | c :: cs => if isDigit c then digitsValue (acc * 10 + (c.toNat - 48)) cs else none

/-- A number literal read as a Go `int` (64 bits): an optional minus and digits only, within
range; a fraction or an exponent does not fit. -/
def intOfLit (lit : String) : Option Int :=
  match lit.toList with
  | [] => none
  | c :: cs =>
    if c.toNat = 45 then
      match cs with
      | [] => none
      | _ :: _ =>
        match digitsValue 0 cs with
        | some n => if n ≤ 2 ^ 63 then some (-(n : Int)) else none
        | none => none
    else
      match digitsValue 0 (c :: cs) with
      | some n => if n < 2 ^ 63 then some (n : Int) else none
      | none => none

/-- Modelled from the spec: the extraction of a parameter set into `params`, shared by
`GetParams` and `GetContext`, whose source is missing. Each of `city`, `gender`, `age` is
looked up by its key; an absent key or a value of the wrong type is a failure, not a
default. -/
def coerceParams (m : ParamMap) : Except String params :=
  match ParamMap.get "city" m, ParamMap.get "gender" m, ParamMap.get "age" m with
  | some (.string c), some (.string g), some (.number n) =>
    match intOfLit n with
    | some a => .ok { City := c, Gender := g, Age := a }
    | none => .error "parameters do not fit the target"
  | _, _, _ => .error "parameters do not fit the target"

/-- Modelled from the spec: `(*df.Request).GetParams`, whose source is missing. It extracts
the top-level parameters of the request into the target; reading them through a nil
receiver is a nil-pointer dereference. -/
def GetParams (dfr : Option Request) (_p : params) : CallResult params :=
  match dfr with
  | none => .panic
  | some r =>
    match coerceParams r.queryResult.parameters with
    | .ok q => .ok q
    | .error e => .err e

/-- The first context of the list with the given name. -/
def findContext (ctx : String) : List Context → Option Context
  | [] => none
  | c :: cs => if c.name = ctx then some c else findContext ctx cs

/-- Modelled from the spec: `(*df.Request).GetContext`, whose source is missing. It looks the
named context up among the output contexts and extracts its parameters into the target; an
absent context is a failure. -/
def GetContext (dfr : Option Request) (ctx : String) (_p : params) : CallResult params :=
  match dfr with
  | none => .panic
  | some r =>
    match findContext ctx r.queryResult.outputContexts with
    | none => .err "context not found"
    | some c =>
      match coerceParams c.parameters with
      | .ok q => .ok q
      | .error e => .err e

/-! ## The fulfillment model -/

/-- Modelled from the spec: a simple response of the Google platform, built from a display
text and a text to speak; the declaration is missing. -/
structure SimpleResponse where
  displayText : String
  textToSpeech : String
  deriving DecidableEq, Repr

/-- Modelled from the spec: the closed set of renderable messages used by the handler,
`df.Text` and the wrapper of simple responses; the declarations are missing. -/
inductive RichMessage where
  | Text (text : List String)
  | SimpleResponses (responses : List SimpleResponse)
  deriving DecidableEq, Repr

/-- Modelled from the spec: a fulfillment message, a renderable message with the platform
it is wrapped for, if any; the declaration of `df.Message` is missing. -/
structure Message where
  Platform : Option String
  RichMessage : RichMessage
  deriving DecidableEq, Repr

/-- Modelled from the spec: `df.Fulfillment`, the ordered sequence of messages sent back;
the declaration is missing. -/
structure Fulfillment where
  FulfillmentMessages : List Message
  deriving DecidableEq, Repr

/-- Modelled from the spec: `df.SingleSimpleResponse`, whose source is missing: the rich
message holding one simple response. -/
def SingleSimpleResponse (display speech : String) : RichMessage :=
  .SimpleResponses [{ displayText := display, textToSpeech := speech }]

/-- Modelled from the spec: `df.ForGoogle`, whose source is missing: the message wrapped for
the Google platform. -/
def ForGoogle (r : RichMessage) : Message :=
  { Platform := some "ACTIONS_ON_GOOGLE", RichMessage := r }

/-- The fulfillment that lines 44 to 49 of main.go build. -/
def dff : Fulfillment :=
  { FulfillmentMessages :=
      [ ForGoogle (SingleSimpleResponse "hello" "hello"),
        { Platform := none, RichMessage := .Text ["hello"] } ] }

/-- A hexadecimal digit, lower case. -/
def hexDigit (n : Nat) : Char :=
  if n < 10 then Char.ofNat (48 + n) else Char.ofNat (87 + n)

/-- One character of a JSON string as the encoder writes it. -/
def escapeChar (c : Char) : List Char :=
  let n := c.toNat
  if n = 34 ∨ n = 92 then [Char.ofNat 92, c]
  else if n = 10 then [Char.ofNat 92, Char.ofNat 110]
  else if n = 13 then [Char.ofNat 92, Char.ofNat 114]
  else if n = 9 then [Char.ofNat 92, Char.ofNat 116]
  else if n < 32 ∨ n = 60 ∨ n = 62 ∨ n = 38 ∨ n = 8232 ∨ n = 8233 then
    [Char.ofNat 92, Char.ofNat 117, hexDigit (n / 4096), hexDigit (n / 256 % 16),
      hexDigit (n / 16 % 16), hexDigit (n % 16)]
  else [c]

/-- A string as a JSON string literal. -/
def quote (s : String) : String :=
  String.mk ([Char.ofNat 34] ++ (s.toList.map escapeChar).flatten ++ [Char.ofNat 34])

/-- Join the items with commas. -/
def commaSep : List String → String
  | [] => ""
  | [x] => x
  | x :: y :: xs => x ++ "," ++ commaSep (y :: xs)

/-- An object with the given rendered members. -/
def jsonObject (members : List (String × String)) : String :=
  "\x7b" ++ commaSep (members.map fun kv => quote kv.1 ++ ":" ++ kv.2) ++ "\x7d"

/-- An array with the given rendered elements. -/
def jsonArray (elems : List String) : String :=
  "[" ++ commaSep elems ++ "]"

/-- Modelled from the spec: the JSON form of a simple response. -/
def SimpleResponse.toJSON (r : SimpleResponse) : String :=
  jsonObject [("displayText", quote r.displayText), ("textToSpeech", quote r.textToSpeech)]

/-- Modelled from the spec: the JSON form of a message, whose marshaller is missing: a
plain-text message is an object with a `text` field holding the sequence of strings, a
wrapped message names its platform and holds the rich payload. -/
def Message.toJSON (m : Message) : String :=
  let payload : List (String × String) :=
    match m.RichMessage with
    | .Text ts => [("text", jsonObject [("text", jsonArray (ts.map quote))])]
    | .SimpleResponses rs =>
      [("simpleResponses",
        jsonObject [("simpleResponses", jsonArray (rs.map SimpleResponse.toJSON))])]
  match m.Platform with
  | some pf => jsonObject (("platform", quote pf) :: payload)
  | none => jsonObject payload

/-- Modelled from the spec: what `json.NewEncoder(rw).Encode(dff)` writes: the JSON object
with the field `fulfillmentMessages`, followed by a newline. -/
def Encode (f : Fulfillment) : String :=
  jsonObject [("fulfillmentMessages", jsonArray (f.FulfillmentMessages.map Message.toJSON))]
    ++ "\n"

/-! ## The response writer (`net/http`) -/

/-- The header map of a response. -/
abbrev Header := List (String × String)

/-- The call `Header.Set`: the entry for `k` is replaced by the single value `v`. -/
def Header.Set (k v : String) (h : Header) : Header :=
  (k, v) :: h.filter (fun kv => kv.1 ≠ k)

/-- The value of the header `k`, if set. -/
def Header.Get (k : String) : Header → Option String
  | [] => none
  | (k1, v1) :: h => if k1 = k then some v1 else Header.Get k h

/-- The state of an `http.ResponseWriter`: the header map the handler can still change,
the status line once written together with the headers sent with it, and the body bytes
written so far. -/
structure ResponseWriter where
  header : Header
  status : Option Nat
  sent : Header
  body : String
  deriving DecidableEq, Repr

/-- The writer a handler receives: nothing written yet, header map `h`. -/
def ResponseWriter.fresh (h : Header) : ResponseWriter :=
  { header := h, status := none, sent := [], body := "" }

/-- The call `rw.Header().Set(k, v)`. -/
def ResponseWriter.SetHeader (k v : String) (rw : ResponseWriter) : ResponseWriter :=
  { rw with header := Header.Set k v rw.header }

/-- The call `rw.WriteHeader(code)`: the first call writes the status line and sends the
header map as it is then; a later call is ignored. -/
def ResponseWriter.WriteHeader (code : Nat) (rw : ResponseWriter) : ResponseWriter :=
  match rw.status with
  | some _ => rw
  | none => { rw with status := some code, sent := rw.header }

/-- The call `rw.Write(b)`: an implicit `WriteHeader(200)` if no status was written, then
the bytes are appended to the body. -/
def ResponseWriter.Write (b : String) (rw : ResponseWriter) : ResponseWriter :=
  { rw.WriteHeader 200 with body := (rw.WriteHeader 200).body ++ b }

/-- The status codes the handler uses. -/
def StatusOK : Nat := 200

/-- The status code `http.StatusBadRequest`. -/
def StatusBadRequest : Nat := 400

/-! ## The handler -/

/-- The calls the handler makes outside main.go, in the order it makes them. -/
inductive Step where
  | decode
  | getParams
  | getContext (ctx : String)
  | encode
  | closeBody
  deriving DecidableEq, Repr

/-- What one invocation of the handler leaves behind: the response writer, the calls it
made, and whether it was aborted by a panic (the server then sends no response). -/
structure Run where
  rw : ResponseWriter
  calls : List Step
  panicked : Bool
  deriving DecidableEq, Repr

/-- The code the handler calls and main.go does not contain: the JSON decoder applied to the
request body, the two accessors of the request, and the JSON encoder. -/
structure Library where
  Decode : String → Except String (Option Request)
  GetParams : Option Request → params → CallResult params
  GetContext : Option Request → String → params → CallResult params
  Encode : Fulfillment → String

/-- The function `webhook` of main.go, over the library it calls. `rw` is the response
writer and `body` the bytes of `req.Body`. -/
def webhookWith (lib : Library) (rw : ResponseWriter) (body : String) : Run :=
  match lib.Decode body with
  | .error _ =>
    { rw := rw.WriteHeader StatusBadRequest, calls := [.decode], panicked := false }
  | .ok dfr =>
    match lib.GetParams dfr params.zero with
    | .panic => { rw := rw, calls := [.decode, .getParams, .closeBody], panicked := true }
    | .err _ =>
      { rw := rw.WriteHeader StatusBadRequest,
        calls := [.decode, .getParams, .closeBody], panicked := false }
    | .ok p =>
      match lib.GetContext dfr "my-awesome-context" p with
      | .panic =>
        { rw := rw,
          calls := [.decode, .getParams, .getContext "my-awesome-context", .closeBody],
          panicked := true }
      | .err _ =>
        { rw := rw.WriteHeader StatusBadRequest,
          calls := [.decode, .getParams, .getContext "my-awesome-context", .closeBody],
          panicked := false }
      | .ok _ =>
        { rw := ((rw.SetHeader "Content-Type" "application/json").WriteHeader StatusOK).Write
            (lib.Encode dff),
          calls := [.decode, .getParams, .getContext "my-awesome-context", .encode,
            .closeBody],
          panicked := false }

/-- The library as it is linked into the example: the streaming decoder of `encoding/json`
and the accessors and encoder of package `df`. -/
def goLibrary : Library :=
  { Decode := Decode, GetParams := GetParams, GetContext := GetContext, Encode := Encode }

/-- The handler `webhook` as registered for `/webhook`. -/
def webhook (rw : ResponseWriter) (body : String) : Run :=
  webhookWith goLibrary rw body

/-! ## The handler over its variables -/

/-- The variables of the handler, declared in lines 18 to 20 of main.go. -/
structure Vars where
  err : Option String
  dfr : Option Request
  p : params

/-- The calls of the handler with the storage they write through: the decoder is given the
pointer variable it decodes into, the accessors the target they fill. -/
structure StorageLibrary where
  DecodeInto : Option Request → String → Except String (Option Request)
  GetParams : Option Request → params → CallResult params
  GetContext : Option Request → String → params → CallResult params
  Encode : Fulfillment → String

/-- The calls as the handler sees them when the pointer it decodes into is nil. -/
def StorageLibrary.toLibrary (lib : StorageLibrary) : Library :=
  { Decode := lib.DecodeInto none, GetParams := lib.GetParams,
    GetContext := lib.GetContext, Encode := lib.Encode }

/-- The declaration `var err error`. -/
def Vars.declareErr (v : Vars) : Vars := { v with err := none }

/-- The declaration `var dfr *df.Request`. -/
def Vars.declareDfr (v : Vars) : Vars := { v with dfr := none }

/-- The declaration `var p params`. -/
def Vars.declareP (v : Vars) : Vars := { v with p := params.zero }

/-- The function `webhook` of main.go run on variables that hold `vars` when it is entered
(what earlier invocations may have left there). Every call reads the variables it is passed
in the source: `Decode(&dfr)` the pointer `dfr`, `GetParams(&p)` and `GetContext(.., &p)`
the request `dfr` and the target `p`. -/
def webhookOn (lib : StorageLibrary) (vars : Vars) (rw : ResponseWriter) (body : String) :
    Run :=
  let v1 := ((vars.declareErr).declareDfr).declareP
  match lib.DecodeInto v1.dfr body with
  | .error _ =>
    { rw := rw.WriteHeader StatusBadRequest, calls := [.decode], panicked := false }
  | .ok d =>
    let v2 : Vars := { v1 with dfr := d, err := none }
    match lib.GetParams v2.dfr v2.p with
    | .panic => { rw := rw, calls := [.decode, .getParams, .closeBody], panicked := true }
    | .err _ =>
      { rw := rw.WriteHeader StatusBadRequest,
        calls := [.decode, .getParams, .closeBody], panicked := false }
    | .ok q =>
      let v3 : Vars := { v2 with p := q, err := none }
      match lib.GetContext v3.dfr "my-awesome-context" v3.p with
      | .panic =>
        { rw := rw,
          calls := [.decode, .getParams, .getContext "my-awesome-context", .closeBody],
          panicked := true }
      | .err _ =>
        { rw := rw.WriteHeader StatusBadRequest,
          calls := [.decode, .getParams, .getContext "my-awesome-context", .closeBody],
          panicked := false }
      | .ok _ =>
        { rw := ((rw.SetHeader "Content-Type" "application/json").WriteHeader StatusOK).Write
            (lib.Encode dff),
          calls := [.decode, .getParams, .getContext "my-awesome-context", .encode,
            .closeBody],
          panicked := false }

/-- Unmarshal a JSON value into the pointer `dfr`, whatever it holds: `null` sets it to nil,
an object fills the request it points to (a fresh one if it is nil), anything else is a
type error. -/
def unmarshalInto (dfr : Option Request) : JSON → Except String (Option Request)
  | .null => .ok none
  | .object ms =>
    match unmarshalRequestMembers (dfr.getD Request.zero) ms with
    | .error e => .error e
    | .ok r => .ok (some r)
  | _ => .error "json: cannot unmarshal into Go value of type df.Request"

/-- The call `json.NewDecoder(req.Body).Decode(&dfr)` for a pointer `dfr` in any state. -/
def DecodeInto (dfr : Option Request) (body : String) : Except String (Option Request) :=
  match readValue body with
  | .error _ => .error "json: invalid or truncated input"
  | .ok v => unmarshalInto dfr v

/-- The linked library with the storage its calls write through. -/
def goStorageLibrary : StorageLibrary :=
  { DecodeInto := DecodeInto, GetParams := GetParams, GetContext := GetContext,
    Encode := Encode }

/-- The response written on the success path, from a fresh writer with header map `h`. -/
def successResponse (lib : Library) (h : Header) : ResponseWriter :=
  { header := Header.Set "Content-Type" "application/json" h,
    status := some 200,
    sent := Header.Set "Content-Type" "application/json" h,
    body := lib.Encode dff }

/-- The response written on a failure path, from a fresh writer with header map `h`. -/
def failureResponse (h : Header) : ResponseWriter :=
  { header := h, status := some 400, sent := h, body := "" }

/-! ## Sample requests -/

/-- A request with well-typed top-level parameters and the context `my-awesome-context`. -/
def goodBody : String :=
  "\x7b\"queryResult\":\x7b\"parameters\":\x7b\"city\":\"Paris\",\"gender\":\"f\",\"age\":30\x7d,\"outputContexts\":[\x7b\"name\":\"my-awesome-context\",\"parameters\":\x7b\"city\":\"Rome\",\"gender\":\"m\",\"age\":41\x7d\x7d]\x7d\x7d"

/-- The context carried by the sample requests. -/
def goodContext : Context :=
  { name := "my-awesome-context",
    parameters := [("city", .string "Rome"), ("gender", .string "m"), ("age", .number "41")] }

/-- The request `goodBody` decodes into. -/
def goodRequest : Request :=
  { queryResult :=
      { parameters := [("city", .string "Paris"), ("gender", .string "f"), ("age", .number "30")],
        outputContexts := [goodContext] } }

/-- The request of `goodBody` followed by bytes that are not JSON. -/
def trailingBody : String := goodBody ++ " trailing garbage"

/-- The request of `goodBody` cut short inside the context list. -/
def truncatedBody : String :=
  "\x7b\"queryResult\":\x7b\"parameters\":\x7b\"city\":\"Paris\",\"gender\":\"f\",\"age\":30\x7d,\"outputContexts\":["

/-- The request of `goodBody` with `age` given as a JSON string at the top level. -/
def ageStringBody : String :=
  "\x7b\"queryResult\":\x7b\"parameters\":\x7b\"city\":\"Paris\",\"gender\":\"f\",\"age\":\"30\"\x7d,\"outputContexts\":[\x7b\"name\":\"my-awesome-context\",\"parameters\":\x7b\"city\":\"Rome\",\"gender\":\"m\",\"age\":41\x7d\x7d]\x7d\x7d"

/-- The request `ageStringBody` decodes into. -/
def ageStringRequest : Request :=
  { queryResult :=
      { parameters :=
          [("city", .string "Paris"), ("gender", .string "f"), ("age", .string "30")],
        outputContexts := [goodContext] } }

/-- A request with well-typed top-level parameters and a context of another name. -/
def otherContextBody : String :=
  "\x7b\"queryResult\":\x7b\"parameters\":\x7b\"city\":\"Paris\",\"gender\":\"f\",\"age\":30\x7d,\"outputContexts\":[\x7b\"name\":\"another-context\",\"parameters\":\x7b\"city\":\"Rome\",\"gender\":\"m\",\"age\":41\x7d\x7d]\x7d\x7d"

/-- The request `otherContextBody` decodes into. -/
def otherContextRequest : Request :=
  { queryResult :=
      { parameters := [("city", .string "Paris"), ("gender", .string "f"), ("age", .number "30")],
        outputContexts :=
          [{ name := "another-context",
             parameters :=
               [("city", .string "Rome"), ("gender", .string "m"), ("age", .number "41")] }] } }

/-- The request of `goodBody` without the key `age` at the top level. -/
def missingAgeBody : String :=
  "\x7b\"queryResult\":\x7b\"parameters\":\x7b\"city\":\"Paris\",\"gender\":\"f\"\x7d,\"outputContexts\":[\x7b\"name\":\"my-awesome-context\",\"parameters\":\x7b\"city\":\"Rome\",\"gender\":\"m\",\"age\":41\x7d\x7d]\x7d\x7d"

/-- The request `missingAgeBody` decodes into. -/
def missingAgeRequest : Request :=
  { queryResult :=
      { parameters := [("city", .string "Paris"), ("gender", .string "f")],
        outputContexts := [goodContext] } }

/-- The request of `goodBody` with other top-level parameter values. -/
def otherParamsBody : String :=
  "\x7b\"queryResult\":\x7b\"parameters\":\x7b\"city\":\"Oslo\",\"gender\":\"x\",\"age\":7\x7d,\"outputContexts\":[\x7b\"name\":\"my-awesome-context\",\"parameters\":\x7b\"city\":\"Rome\",\"gender\":\"m\",\"age\":41\x7d\x7d]\x7d\x7d"

/-- The request `otherParamsBody` decodes into. -/
def otherParamsRequest : Request :=
  { queryResult :=
      { parameters := [("city", .string "Oslo"), ("gender", .string "x"), ("age", .number "7")],
        outputContexts := [goodContext] } }

/-- Variables as an invocation on `goodBody` leaves them. -/
def usedVars : Vars :=
  { err := none, dfr := some goodRequest, p := { City := "Rome", Gender := "m", Age := 41 } }

/-- Variables in their zero state. -/
def zeroVars : Vars := { err := none, dfr := none, p := params.zero }

/-! ## The scanner consumes its input and stays within its budget -/

theorem skipSpace_length_le (cs : List Char) : (skipSpace cs).length ≤ cs.length := by
  induction cs with
  | nil => simp [skipSpace]
  | cons c cs ih =>
    simp only [skipSpace]
    split
    · simp only [List.length_cons]; omega
    · exact Nat.le_refl _

theorem skipSpace_cons_length {cs rest : List Char} {c : Char} (h : skipSpace cs = c :: rest) :
    rest.length < cs.length := by
  have := skipSpace_length_le cs
  rw [h] at this
  simp only [List.length_cons] at this
  omega

theorem takeDigits_length_le (cs : List Char) : (takeDigits cs).2.length ≤ cs.length := by
  induction cs with
  | nil => simp [takeDigits]
  | cons c cs ih =>
    simp only [takeDigits]
    split
    · simp only [List.length_cons]; omega
    · exact Nat.le_refl _

theorem scanInt_length {cs i r : List Char} (h : scanInt cs = some (i, r)) :
    r.length ≤ cs.length := by
  cases cs with
  | nil => simp [scanInt] at h
  | cons c cs =>
    have := takeDigits_length_le cs
    simp only [scanInt] at h
    split at h
    · simp at h; obtain ⟨_, rfl⟩ := h; simp
    · split at h
      · simp at h; obtain ⟨_, rfl⟩ := h; simp only [List.length_cons]; omega
      · simp at h

theorem scanFrac_length {cs f r : List Char} (h : scanFrac cs = some (f, r)) :
    r.length ≤ cs.length := by
  cases cs with
  | nil => simp [scanFrac] at h; simp [h]
  | cons c cs =>
    have hl := takeDigits_length_le cs
    simp only [scanFrac] at h
    rcases hd : takeDigits cs with ⟨ds, rest⟩
    rw [hd] at h hl
    split at h
    · cases ds with
      | nil => simp at h
      | cons d ds =>
        simp at h; obtain ⟨_, rfl⟩ := h
        simp only [List.length_cons]; simp at hl; omega
    · simp at h; obtain ⟨_, rfl⟩ := h; simp

theorem scanExpDigits_length {pre cs e r : List Char} (h : scanExpDigits pre cs = some (e, r)) :
    r.length ≤ cs.length := by
  have hl := takeDigits_length_le cs
  simp only [scanExpDigits] at h
  rcases hd : takeDigits cs with ⟨ds, rest⟩
  rw [hd] at h hl
  cases ds with
  | nil => simp at h
  | cons d ds =>
    simp at h; obtain ⟨_, rfl⟩ := h
    simpa using hl

theorem scanExp_length {cs e r : List Char} (h : scanExp cs = some (e, r)) :
    r.length ≤ cs.length := by
  cases cs with
  | nil => simp [scanExp] at h; simp [h]
  | cons c cs =>
    simp only [scanExp] at h
    split at h
    · cases cs with
      | nil => simp at h
      | cons s cs2 =>
        simp only at h
        split at h
        · have := scanExpDigits_length h
          simp only [List.length_cons]; omega
        · have := scanExpDigits_length h
          simp only [List.length_cons] at this ⊢; omega
    · simp at h; obtain ⟨_, rfl⟩ := h; simp

theorem scanUnsigned_length {cs lit r : List Char} (h : scanUnsigned cs = some (lit, r)) :
    r.length ≤ cs.length := by
  simp only [scanUnsigned] at h
  rcases hi : scanInt cs with _ | ⟨i, r1⟩
  · simp [hi] at h
  · rcases hf : scanFrac r1 with _ | ⟨f, r2⟩
    · simp [hi, hf] at h
    · rcases he : scanExp r2 with _ | ⟨e, r3⟩
      · simp [hi, hf, he] at h
      · simp [hi, hf, he] at h
        obtain ⟨_, rfl⟩ := h
        have h1 := scanInt_length hi
        have h2 := scanFrac_length hf
        have h3 := scanExp_length he
        omega

theorem scanNumber_length {cs lit r : List Char} (h : scanNumber cs = some (lit, r)) :
    r.length ≤ cs.length := by
  cases cs with
  | nil => simp [scanNumber] at h
  | cons c cs =>
    simp only [scanNumber] at h
    split at h
    · rcases hu : scanUnsigned cs with _ | ⟨l, r1⟩
      · simp [hu] at h
      · simp [hu] at h
        obtain ⟨_, rfl⟩ := h
        have := scanUnsigned_length hu
        simp only [List.length_cons]; omega
    · exact scanUnsigned_length h

theorem scanLiteral_length {lit cs r : List Char} (h : scanLiteral lit cs = some r) :
    r.length ≤ cs.length := by
  simp only [scanLiteral] at h
  split at h
  · simp at h; subst h; simp
  · simp at h

theorem decodeU_length (hi : Nat) (rest : List Char) :
    (decodeU hi rest).2.length ≤ rest.length := by
  simp only [decodeU]
  split
  · split
    · split <;> simp
    · simp
  · simp

theorem getu4_length {cs : List Char} {n : Nat} (h : getu4 cs = some n) : 4 ≤ cs.length := by
  match cs with
  | [] => simp [getu4] at h
  | [_] => simp [getu4] at h
  | [_, _] => simp [getu4] at h
  | [_, _, _] => simp [getu4] at h
  | _ :: _ :: _ :: _ :: _ => simp

theorem scanString_length (fuel : Nat) : ∀ (cs acc : List Char) (s : String) (r : List Char),
    scanString fuel cs acc = .ok (s, r) → r.length < cs.length := by
  induction fuel with
  | zero => intro cs acc s r h; simp [scanString] at h
  | succ n ih =>
    intro cs acc s r h
    cases cs with
    | nil => simp [scanString] at h
    | cons c cs =>
      simp only [scanString] at h
      split at h
      · simp at h; obtain ⟨_, rfl⟩ := h; simp
      · split at h
        · cases cs with
          | nil => simp at h
          | cons e cs2 =>
            simp only at h
            split at h
            · rcases hg : getu4 cs2 with _ | hi
              · simp [hg] at h
              · simp only [hg] at h
                have h1 := ih _ _ _ _ h
                have h2 := decodeU_length hi (cs2.drop 4)
                have h3 := getu4_length hg
                simp only [List.length_drop] at h2
                simp only [List.length_cons]; omega
            · rcases hs : simpleEscape e with _ | x
              · simp [hs] at h
              · simp only [hs] at h
                have h1 := ih _ _ _ _ h
                simp only [List.length_cons]; omega
        · split at h
          · simp at h
          · have h1 := ih _ _ _ _ h
            simp only [List.length_cons]; omega

theorem scanString_fuel (fuel : Nat) : ∀ (cs acc : List Char),
    cs.length < fuel → scanString fuel cs acc ≠ .error .outOfFuel := by
  induction fuel with
  | zero => intro cs acc h; omega
  | succ n ih =>
    intro cs acc hlen
    cases cs with
    | nil => simp [scanString]
    | cons c cs =>
      simp only [List.length_cons] at hlen
      simp only [scanString]
      split
      · simp
      · split
        · cases cs with
          | nil => simp
          | cons e cs2 =>
            simp only [List.length_cons] at hlen
            simp only
            split
            · rcases hg : getu4 cs2 with _ | hi
              · simp
              · simp only
                have h2 := decodeU_length hi (cs2.drop 4)
                simp only [List.length_drop] at h2
                exact ih _ _ (by omega)
            · rcases hs : simpleEscape e with _ | x
              · simp
              · simp only
                exact ih _ _ (by omega)
        · split
          · simp
          · exact ih _ _ (by omega)


theorem parse_length (fuel : Nat) :
    (∀ depth cs v r, parseValueAt depth fuel cs = .ok (v, r) → r.length ≤ cs.length) ∧
    (∀ depth cs ms r, parseMembersAt depth fuel cs = .ok (ms, r) → r.length ≤ cs.length) ∧
    (∀ depth cs es r, parseElemsAt depth fuel cs = .ok (es, r) → r.length ≤ cs.length) := by
  induction fuel with
  | zero => simp [parseValueAt, parseMembersAt, parseElemsAt]
  | succ n ih =>
    obtain ⟨ihV, ihM, ihE⟩ := ih
    refine ⟨?_, ?_, ?_⟩
    · intro depth cs v r h
      simp only [parseValueAt] at h
      rcases hs : skipSpace cs with _ | ⟨c, rest⟩
      · simp [hs] at h
      · have hl := skipSpace_cons_length hs
        simp only [hs] at h
        split at h
        · split at h
          · simp at h
          · rcases hs2 : skipSpace rest with _ | ⟨d, rest2⟩
            · simp [hs2] at h
            · have hl2 := skipSpace_cons_length hs2
              simp only [hs2] at h
              split at h
              · simp at h; obtain ⟨_, rfl⟩ := h; omega
              · rcases hm : parseMembersAt (depth + 1) n (d :: rest2) with e | ⟨ms, r1⟩
                · simp [hm] at h
                · simp [hm] at h; obtain ⟨_, rfl⟩ := h
                  have := ihM _ _ _ _ hm
                  simp only [List.length_cons] at this; omega
        · split at h
          · split at h
            · simp at h
            · rcases hs2 : skipSpace rest with _ | ⟨d, rest2⟩
              · simp [hs2] at h
              · have hl2 := skipSpace_cons_length hs2
                simp only [hs2] at h
                split at h
                · simp at h; obtain ⟨_, rfl⟩ := h; omega
                · rcases hm : parseElemsAt (depth + 1) n (d :: rest2) with e | ⟨ms, r1⟩
                  · simp [hm] at h
                  · simp [hm] at h; obtain ⟨_, rfl⟩ := h
                    have := ihE _ _ _ _ hm
                    simp only [List.length_cons] at this; omega
          · split at h
            · rcases hm : scanString (rest.length + 1) rest [] with e | ⟨s, r1⟩
              · simp [hm] at h
              · simp [hm] at h; obtain ⟨_, rfl⟩ := h
                have := scanString_length _ _ _ _ _ hm
                omega
            · split at h
              · split at h
                · simp at h
                · rename_i r1 hm
                  simp at h; obtain ⟨_, rfl⟩ := h
                  have := scanLiteral_length hm
                  simp only [List.length_cons] at this; omega
              · split at h
                · split at h
                  · simp at h
                  · rename_i r1 hm
                    simp at h; obtain ⟨_, rfl⟩ := h
                    have := scanLiteral_length hm
                    simp only [List.length_cons] at this; omega
                · split at h
                  · split at h
                    · simp at h
                    · rename_i r1 hm
                      simp at h; obtain ⟨_, rfl⟩ := h
                      have := scanLiteral_length hm
                      simp only [List.length_cons] at this; omega
                  · rcases hm : scanNumber (c :: rest) with _ | ⟨lit, r1⟩
                    · simp [hm] at h
                    · simp [hm] at h; obtain ⟨_, rfl⟩ := h
                      have := scanNumber_length hm
                      simp only [List.length_cons] at this; omega
    · intro depth cs ms r h
      simp only [parseMembersAt] at h
      rcases hs : skipSpace cs with _ | ⟨q, rest⟩
      · simp [hs] at h
      · have hl := skipSpace_cons_length hs
        simp only [hs] at h
        split at h
        · rcases hk : scanString (rest.length + 1) rest [] with e | ⟨k, r1⟩
          · simp [hk] at h
          · have hl1 := scanString_length _ _ _ _ _ hk
            simp only [hk] at h
            rcases hs2 : skipSpace r1 with _ | ⟨colon, r2⟩
            · simp [hs2] at h
            · have hl2 := skipSpace_cons_length hs2
              simp only [hs2] at h
              split at h
              · rcases hv : parseValueAt depth n r2 with e | ⟨v, r3⟩
                · simp [hv] at h
                · have hl3 := ihV _ _ _ _ hv
                  simp only [hv] at h
                  rcases hs3 : skipSpace r3 with _ | ⟨sep, r4⟩
                  · simp [hs3] at h
                  · have hl4 := skipSpace_cons_length hs3
                    simp only [hs3] at h
                    split at h
                    · simp at h; obtain ⟨_, rfl⟩ := h; omega
                    · split at h
                      · rcases hm : parseMembersAt depth n r4 with e | ⟨ms2, r5⟩
                        · simp [hm] at h
                        · simp [hm] at h; obtain ⟨_, rfl⟩ := h
                          have := ihM _ _ _ _ hm
                          omega
                      · simp at h
              · simp at h
        · simp at h
    · intro depth cs es r h
      simp only [parseElemsAt] at h
      rcases hv : parseValueAt depth n cs with e | ⟨v, r1⟩
      · simp [hv] at h
      · have hl1 := ihV _ _ _ _ hv
        simp only [hv] at h
        rcases hs : skipSpace r1 with _ | ⟨sep, r2⟩
        · simp [hs] at h
        · have hl2 := skipSpace_cons_length hs
          simp only [hs] at h
          split at h
          · simp at h; obtain ⟨_, rfl⟩ := h; omega
          · split at h
            · rcases hm : parseElemsAt depth n r2 with e | ⟨vs, r3⟩
              · simp [hm] at h
              · simp [hm] at h; obtain ⟨_, rfl⟩ := h
                have := ihE _ _ _ _ hm
                omega
            · simp at h


theorem parse_fuel (fuel : Nat) :
    (∀ depth cs, 2 * cs.length + 1 ≤ fuel → parseValueAt depth fuel cs ≠ .error .outOfFuel) ∧
    (∀ depth cs, 2 * cs.length + 1 ≤ fuel →
      parseMembersAt depth fuel cs ≠ .error .outOfFuel) ∧
    (∀ depth cs, 2 * cs.length + 2 ≤ fuel →
      parseElemsAt depth fuel cs ≠ .error .outOfFuel) := by
  induction fuel with
  | zero =>
    refine ⟨?_, ?_, ?_⟩ <;> intro depth cs h <;> omega
  | succ n ih =>
    obtain ⟨ihV, ihM, ihE⟩ := ih
    refine ⟨?_, ?_, ?_⟩
    · intro depth cs hf h
      simp only [parseValueAt] at h
      rcases hs : skipSpace cs with _ | ⟨c, rest⟩
      · simp [hs] at h
      · have hl := skipSpace_cons_length hs
        simp only [hs] at h
        split at h
        · split at h
          · simp at h
          · rcases hs2 : skipSpace rest with _ | ⟨d, rest2⟩
            · simp [hs2] at h
            · have hl2 := skipSpace_cons_length hs2
              simp only [hs2] at h
              split at h
              · simp at h
              · rcases hm : parseMembersAt (depth + 1) n (d :: rest2) with e | ⟨ms, r1⟩
                · simp [hm] at h
                  subst h
                  exact ihM _ _ (by simp only [List.length_cons]; omega) hm
                · simp [hm] at h
        · split at h
          · split at h
            · simp at h
            · rcases hs2 : skipSpace rest with _ | ⟨d, rest2⟩
              · simp [hs2] at h
              · have hl2 := skipSpace_cons_length hs2
                simp only [hs2] at h
                split at h
                · simp at h
                · rcases hm : parseElemsAt (depth + 1) n (d :: rest2) with e | ⟨ms, r1⟩
                  · simp [hm] at h
                    subst h
                    exact ihE _ _ (by simp only [List.length_cons]; omega) hm
                  · simp [hm] at h
          · split at h
            · rcases hm : scanString (rest.length + 1) rest [] with e | ⟨s, r1⟩
              · simp [hm] at h
                subst h
                exact scanString_fuel _ _ _ (by omega) hm
              · simp [hm] at h
            · split at h
              · split at h <;> simp at h
              · split at h
                · split at h <;> simp at h
                · split at h
                  · split at h <;> simp at h
                  · split at h <;> simp at h
    · intro depth cs hf h
      simp only [parseMembersAt] at h
      rcases hs : skipSpace cs with _ | ⟨q, rest⟩
      · simp [hs] at h
      · have hl := skipSpace_cons_length hs
        simp only [hs] at h
        split at h
        · rcases hk : scanString (rest.length + 1) rest [] with e | ⟨k, r1⟩
          · simp [hk] at h
            subst h
            exact scanString_fuel _ _ _ (by omega) hk
          · have hl1 := scanString_length _ _ _ _ _ hk
            simp only [hk] at h
            rcases hs2 : skipSpace r1 with _ | ⟨colon, r2⟩
            · simp [hs2] at h
            · have hl2 := skipSpace_cons_length hs2
              simp only [hs2] at h
              split at h
              · rcases hv : parseValueAt depth n r2 with e | ⟨v, r3⟩
                · simp [hv] at h
                  subst h
                  exact ihV _ _ (by omega) hv
                · have hl3 := (parse_length n).1 _ _ _ _ hv
                  simp only [hv] at h
                  rcases hs3 : skipSpace r3 with _ | ⟨sep, r4⟩
                  · simp [hs3] at h
                  · have hl4 := skipSpace_cons_length hs3
                    simp only [hs3] at h
                    split at h
                    · simp at h
                    · split at h
                      · rcases hm : parseMembersAt depth n r4 with e | ⟨ms2, r5⟩
                        · simp [hm] at h
                          subst h
                          exact ihM _ _ (by omega) hm
                        · simp [hm] at h
                      · simp at h
              · simp at h
        · simp at h
    · intro depth cs hf h
      simp only [parseElemsAt] at h
      rcases hv : parseValueAt depth n cs with e | ⟨v, r1⟩
      · simp [hv] at h
        subst h
        exact ihV _ _ (by omega) hv
      · have hl1 := (parse_length n).1 _ _ _ _ hv
        simp only [hv] at h
        rcases hs : skipSpace r1 with _ | ⟨sep, r2⟩
        · simp [hs] at h
        · have hl2 := skipSpace_cons_length hs
          simp only [hs] at h
          split at h
          · simp at h
          · split at h
            · rcases hm : parseElemsAt depth n r2 with e | ⟨vs, r3⟩
              · simp [hm] at h
                subst h
                exact ihE _ _ (by omega) hm
              · simp [hm] at h
            · simp at h

/-- The recursion budget of `readValue` is never the reason a body is rejected. -/
theorem readValue_budget (body : String) : readValue body ≠ .error .outOfFuel := by
  intro h
  unfold readValue at h
  split at h
  · rename_i e hp
    injection h with h
    subst h
    exact (parse_fuel _).1 _ _ (Nat.le_refl _) hp
  · cases h

/-! ## The handler's paths -/

theorem webhookWith_decode_error (lib : Library) (rw : ResponseWriter) (body e : String)
    (hd : lib.Decode body = .error e) :
    webhookWith lib rw body =
      { rw := rw.WriteHeader StatusBadRequest, calls := [.decode], panicked := false } := by
  simp [webhookWith, hd]

theorem webhookWith_getParams_error (lib : Library) (rw : ResponseWriter) (body e : String)
    (dfr : Option Request) (hd : lib.Decode body = .ok dfr)
    (hp : lib.GetParams dfr params.zero = .err e) :
    webhookWith lib rw body =
      { rw := rw.WriteHeader StatusBadRequest, calls := [.decode, .getParams, .closeBody],
        panicked := false } := by
  simp [webhookWith, hd, hp]

theorem webhookWith_getContext_error (lib : Library) (rw : ResponseWriter) (body e : String)
    (dfr : Option Request) (p : params) (hd : lib.Decode body = .ok dfr)
    (hp : lib.GetParams dfr params.zero = .ok p)
    (hc : lib.GetContext dfr "my-awesome-context" p = .err e) :
    webhookWith lib rw body =
      { rw := rw.WriteHeader StatusBadRequest,
        calls := [.decode, .getParams, .getContext "my-awesome-context", .closeBody],
        panicked := false } := by
  simp [webhookWith, hd, hp, hc]

theorem webhookWith_ok (lib : Library) (rw : ResponseWriter) (body : String)
    (dfr : Option Request) (p q : params) (hd : lib.Decode body = .ok dfr)
    (hp : lib.GetParams dfr params.zero = .ok p)
    (hc : lib.GetContext dfr "my-awesome-context" p = .ok q) :
    webhookWith lib rw body =
      { rw := ((rw.SetHeader "Content-Type" "application/json").WriteHeader StatusOK).Write
          (lib.Encode dff),
        calls := [.decode, .getParams, .getContext "my-awesome-context", .encode, .closeBody],
        panicked := false } := by
  simp [webhookWith, hd, hp, hc]

theorem success_write (lib : Library) (h : Header) :
    (((ResponseWriter.fresh h).SetHeader "Content-Type" "application/json").WriteHeader
      StatusOK).Write (lib.Encode dff) = successResponse lib h := by
  simp [ResponseWriter.Write, ResponseWriter.WriteHeader, ResponseWriter.SetHeader,
    ResponseWriter.fresh, successResponse, StatusOK]

theorem failure_write (h : Header) :
    (ResponseWriter.fresh h).WriteHeader StatusBadRequest = failureResponse h := by
  simp [ResponseWriter.WriteHeader, ResponseWriter.fresh, failureResponse, StatusBadRequest]

/-- Every run from a fresh writer ends in one of three ways: the success response, the
failure response, or a panic that leaves the writer untouched. -/
theorem webhookWith_cases (lib : Library) (h : Header) (body : String) :
    (webhookWith lib (.fresh h) body).rw = successResponse lib h ∧
        (webhookWith lib (.fresh h) body).panicked = false ∨
      (webhookWith lib (.fresh h) body).rw = failureResponse h ∧
        (webhookWith lib (.fresh h) body).panicked = false ∨
      (webhookWith lib (.fresh h) body).rw = .fresh h ∧
        (webhookWith lib (.fresh h) body).panicked = true := by
  rcases hd : lib.Decode body with e | dfr
  · simp [webhookWith, hd, failure_write]
  · rcases hp : lib.GetParams dfr params.zero with p | e | _
    · rcases hc : lib.GetContext dfr "my-awesome-context" p with q | e | _
      · simp [webhookWith, hd, hp, hc, success_write]
      · simp [webhookWith, hd, hp, hc, failure_write]
      · simp [webhookWith, hd, hp, hc]
    · simp [webhookWith, hd, hp, failure_write]
    · simp [webhookWith, hd, hp]

/-- The status is 200 exactly when the decoder and both accessors return without error. -/
theorem webhookWith_status_ok_iff (lib : Library) (h : Header) (body : String) :
    (webhookWith lib (.fresh h) body).rw.status = some 200 ↔
      ∃ dfr p q, lib.Decode body = .ok dfr ∧ lib.GetParams dfr params.zero = .ok p ∧
        lib.GetContext dfr "my-awesome-context" p = .ok q := by
  rcases hd : lib.Decode body with e | dfr
  · simp [webhookWith, hd, failure_write, failureResponse]
  · rcases hp : lib.GetParams dfr params.zero with p | e | _
    · rcases hc : lib.GetContext dfr "my-awesome-context" p with q | e | _
      · simp [webhookWith, hd, hp, hc, success_write, successResponse]
      · simp [webhookWith, hd, hp, hc, failure_write, failureResponse]
      · simp [webhookWith, hd, hp, hc, ResponseWriter.fresh]
    · simp [webhookWith, hd, hp, failure_write, failureResponse]
    · simp [webhookWith, hd, hp, ResponseWriter.fresh]

/-- The bytes the modelled encoder writes for the handler's fulfillment. -/
theorem encode_dff :
    Encode dff =
      "\x7b\"fulfillmentMessages\":[\x7b\"platform\":\"ACTIONS_ON_GOOGLE\",\"simpleResponses\":\x7b\"simpleResponses\":[\x7b\"displayText\":\"hello\",\"textToSpeech\":\"hello\"\x7d]\x7d\x7d,\x7b\"text\":\x7b\"text\":[\"hello\"]\x7d\x7d]\x7d\n" := by
  decide

/-- With a nil pointer the decoder over storage is the decoder of the linked library. -/
theorem goStorageLibrary_toLibrary : goStorageLibrary.toLibrary = goLibrary := by
  have hd : DecodeInto none = Decode := by
    funext body
    simp only [DecodeInto, Decode]
    rcases readValue body with e | v
    · rfl
    · cases v <;> rfl
  simp [StorageLibrary.toLibrary, goStorageLibrary, goLibrary, hd]

theorem header_get_set (k v : String) (h : Header) : Header.Get k (Header.Set k v h) = some v := by
  simp [Header.Get, Header.Set]

theorem findContext_none_of_no_name (ctx : String) (cs : List Context)
    (hno : ∀ c ∈ cs, c.name ≠ ctx) : findContext ctx cs = none := by
  induction cs with
  | nil => rfl
  | cons c cs ih =>
    have hc : c.name ≠ ctx := hno c (List.mem_cons_self c cs)
    have ht : ∀ d ∈ cs, d.name ≠ ctx := fun d hd => hno d (List.mem_cons_of_mem c hd)
    simp [findContext, hc, ih ht]

theorem coerceParams_error_of_missing (m : ParamMap)
    (hmiss : ParamMap.get "city" m = none ∨ ParamMap.get "gender" m = none ∨
      ParamMap.get "age" m = none) :
    ∃ e, coerceParams m = .error e := by
  unfold coerceParams
  rcases hmiss with hm | hm | hm
  · rw [hm]; exact ⟨_, rfl⟩
  · rw [hm]
    split <;> first | exact ⟨_, rfl⟩ | simp_all
  · rw [hm]
    split <;> first | exact ⟨_, rfl⟩ | simp_all

/-! ## The claims -/

/-- C1: when the body decodes, the top-level parameters extract and the context
`my-awesome-context` extracts, the handler answers 200 with the JSON encoding of the
fulfillment made of the Google-wrapped simple response ("hello", "hello") followed by the
plain-text message ["hello"]; the response does not depend on the extracted values. -/
theorem webhook_success_response (lib : Library) (h : Header) (body : String)
    (dfr : Option Request) (p q : params)
    (hd : lib.Decode body = .ok dfr)
    (hp : lib.GetParams dfr params.zero = .ok p)
    (hc : lib.GetContext dfr "my-awesome-context" p = .ok q) :
    (webhookWith lib (.fresh h) body).rw.status = some 200 ∧
      (webhookWith lib (.fresh h) body).rw.body =
        lib.Encode
          { FulfillmentMessages :=
              [ ForGoogle (SingleSimpleResponse "hello" "hello"),
                { Platform := none, RichMessage := .Text ["hello"] } ] } ∧
      (webhookWith lib (.fresh h) body).panicked = false := by
  rw [webhookWith_ok lib _ body dfr p q hd hp hc, success_write]
  exact ⟨rfl, rfl, rfl⟩

/-- The success path on `goodBody`, with the linked library. -/
theorem webhook_success_response_witness :
    goLibrary.Decode goodBody = .ok (some goodRequest) ∧
      goLibrary.GetParams (some goodRequest) params.zero =
        .ok { City := "Paris", Gender := "f", Age := 30 } ∧
      goLibrary.GetContext (some goodRequest) "my-awesome-context"
          { City := "Paris", Gender := "f", Age := 30 } =
        .ok { City := "Rome", Gender := "m", Age := 41 } ∧
      ((webhookWith goLibrary (.fresh []) goodBody).rw.status = some 200 ∧
        (webhookWith goLibrary (.fresh []) goodBody).rw.body =
          goLibrary.Encode
            { FulfillmentMessages :=
                [ ForGoogle (SingleSimpleResponse "hello" "hello"),
                  { Platform := none, RichMessage := .Text ["hello"] } ] } ∧
        (webhookWith goLibrary (.fresh []) goodBody).panicked = false) :=
  ⟨rfl, rfl, rfl,
    webhook_success_response goLibrary [] goodBody (some goodRequest)
      { City := "Paris", Gender := "f", Age := 30 } { City := "Rome", Gender := "m", Age := 41 }
      rfl rfl rfl⟩

/-- C2 as stated fails: a body made of a valid request followed by bytes that are not JSON is
accepted. The decoder reads the first value, leaves " trailing garbage" unread, and the
handler runs both extractions and answers 200. -/
theorem trailing_bytes_not_rejected :
    (∃ v, parseValue (scanBudget trailingBody.toList) trailingBody.toList =
        .ok (v, " trailing garbage".toList)) ∧
      parseValue (scanBudget " trailing garbage".toList) " trailing garbage".toList =
        .error .invalid ∧
      (webhook (.fresh []) trailingBody).rw.status = some 200 ∧
      (webhook (.fresh []) trailingBody).rw.body ≠ "" ∧
      (webhook (.fresh []) trailingBody).calls =
        [.decode, .getParams, .getContext "my-awesome-context", .encode, .closeBody] :=
  ⟨⟨_, rfl⟩, rfl, by decide, by decide, by decide⟩

/-- C2, amended: when the decoder rejects the body, the handler answers 400 with an empty
body and calls neither `GetParams` nor `GetContext` (nor the encoder). -/
theorem webhook_decode_failure (lib : Library) (h : Header) (body e : String)
    (hd : lib.Decode body = .error e) :
    (webhookWith lib (.fresh h) body).rw.status = some 400 ∧
      (webhookWith lib (.fresh h) body).rw.body = "" ∧
      (webhookWith lib (.fresh h) body).calls = [.decode] ∧
      (webhookWith lib (.fresh h) body).panicked = false := by
  rw [webhookWith_decode_error lib _ body e hd, failure_write]
  exact ⟨rfl, rfl, rfl, rfl⟩

/-- The decode failure on `truncatedBody`, with the linked library. -/
theorem webhook_decode_failure_witness :
    goLibrary.Decode truncatedBody = .error "json: invalid or truncated input" ∧
      ((webhookWith goLibrary (.fresh []) truncatedBody).rw.status = some 400 ∧
        (webhookWith goLibrary (.fresh []) truncatedBody).rw.body = "" ∧
        (webhookWith goLibrary (.fresh []) truncatedBody).calls = [.decode] ∧
        (webhookWith goLibrary (.fresh []) truncatedBody).panicked = false) :=
  ⟨rfl, webhook_decode_failure goLibrary [] truncatedBody _ rfl⟩

/-- C3: when the body decodes into a request none of whose contexts is named
`my-awesome-context`, the handler answers 400 with an empty body; when the top-level
parameters extracted, it is the context lookup that stopped it. -/
theorem webhook_missing_context (h : Header) (body : String) (r : Request)
    (hd : Decode body = .ok (some r))
    (hno : ∀ c ∈ r.queryResult.outputContexts, c.name ≠ "my-awesome-context") :
    (webhook (.fresh h) body).rw.status = some 400 ∧
      (webhook (.fresh h) body).rw.body = "" ∧
      (webhook (.fresh h) body).panicked = false ∧
      (∀ p, coerceParams r.queryResult.parameters = .ok p →
        (webhook (.fresh h) body).calls =
          [.decode, .getParams, .getContext "my-awesome-context", .closeBody]) := by
  have hf := findContext_none_of_no_name _ _ hno
  have hd2 : goLibrary.Decode body = .ok (some r) := hd
  unfold webhook
  rcases hp : coerceParams r.queryResult.parameters with e | p
  · have hp2 : goLibrary.GetParams (some r) params.zero = .err e := by
      simp [goLibrary, GetParams, hp]
    rw [webhookWith_getParams_error goLibrary _ body e (some r) hd2 hp2, failure_write]
    exact ⟨rfl, rfl, rfl, fun p hp3 => by cases hp3⟩
  · have hp2 : goLibrary.GetParams (some r) params.zero = .ok p := by
      simp [goLibrary, GetParams, hp]
    have hc2 : goLibrary.GetContext (some r) "my-awesome-context" p =
        .err "context not found" := by
      simp [goLibrary, GetContext, hf]
    rw [webhookWith_getContext_error goLibrary _ body _ (some r) p hd2 hp2 hc2, failure_write]
    exact ⟨rfl, rfl, rfl, fun _ _ => rfl⟩

/-- The missing context on `otherContextBody`, whose top-level parameters extract. -/
theorem webhook_missing_context_witness :
    Decode otherContextBody = .ok (some otherContextRequest) ∧
      (∀ c ∈ otherContextRequest.queryResult.outputContexts, c.name ≠ "my-awesome-context") ∧
      ((webhook (.fresh []) otherContextBody).rw.status = some 400 ∧
        (webhook (.fresh []) otherContextBody).rw.body = "" ∧
        (webhook (.fresh []) otherContextBody).panicked = false ∧
        (∀ p, coerceParams otherContextRequest.queryResult.parameters = .ok p →
          (webhook (.fresh []) otherContextBody).calls =
            [.decode, .getParams, .getContext "my-awesome-context", .closeBody])) :=
  ⟨rfl, by simp [otherContextRequest],
    webhook_missing_context [] otherContextBody otherContextRequest rfl
      (by simp [otherContextRequest])⟩

/-- C4: when the body decodes and the top-level parameters do not fit `params`, the handler
answers 400 with an empty body and stops: it neither looks up the context nor encodes a
fulfillment, whatever contexts the request carries. -/
theorem webhook_params_failure (lib : Library) (h : Header) (body e : String)
    (dfr : Option Request) (hd : lib.Decode body = .ok dfr)
    (hp : lib.GetParams dfr params.zero = .err e) :
    (webhookWith lib (.fresh h) body).rw.status = some 400 ∧
      (webhookWith lib (.fresh h) body).rw.body = "" ∧
      (webhookWith lib (.fresh h) body).calls = [.decode, .getParams, .closeBody] ∧
      Step.getContext "my-awesome-context" ∉ (webhookWith lib (.fresh h) body).calls ∧
      Step.encode ∉ (webhookWith lib (.fresh h) body).calls := by
  rw [webhookWith_getParams_error lib _ body e dfr hd hp, failure_write]
  exact ⟨rfl, rfl, rfl, by simp, by simp⟩

/-- The parameter failure on `ageStringBody`, which carries a well-formed context. -/
theorem webhook_params_failure_witness :
    goLibrary.Decode ageStringBody = .ok (some ageStringRequest) ∧
      goLibrary.GetParams (some ageStringRequest) params.zero =
        .err "parameters do not fit the target" ∧
      ((webhookWith goLibrary (.fresh []) ageStringBody).rw.status = some 400 ∧
        (webhookWith goLibrary (.fresh []) ageStringBody).rw.body = "" ∧
        (webhookWith goLibrary (.fresh []) ageStringBody).calls =
          [.decode, .getParams, .closeBody] ∧
        Step.getContext "my-awesome-context" ∉
          (webhookWith goLibrary (.fresh []) ageStringBody).calls ∧
        Step.encode ∉ (webhookWith goLibrary (.fresh []) ageStringBody).calls) :=
  ⟨rfl, rfl,
    webhook_params_failure goLibrary [] ageStringBody _ (some ageStringRequest) rfl rfl⟩

/-- C5 fails on the body `null`: the decoder accepts it and leaves the request pointer nil,
the call of `GetParams` on it panics, and the handler writes neither 200 nor 400. -/
theorem webhook_null_body_panics :
    Decode "null" = .ok none ∧
      (webhook (.fresh []) "null").panicked = true ∧
      (webhook (.fresh []) "null").rw.status = none ∧
      (webhook (.fresh []) "null").calls = [.decode, .getParams, .closeBody] :=
  ⟨rfl, by decide, by decide, by decide⟩

/-- C6: from a writer whose header map has no `Content-Type`, the response is sent with
`Content-Type: application/json` exactly when its status is 200; on success the header is
in the map when the status line is written, and on a failure the header map is the one the
handler received. -/
theorem content_type_iff_success (lib : Library) (h : Header) (body : String)
    (hh : Header.Get "Content-Type" h = none) :
    (Header.Get "Content-Type" (webhookWith lib (.fresh h) body).rw.sent =
        some "application/json" ↔
      (webhookWith lib (.fresh h) body).rw.status = some 200) ∧
      ((webhookWith lib (.fresh h) body).rw.status = some 200 →
        (webhookWith lib (.fresh h) body).rw.sent =
          Header.Set "Content-Type" "application/json" h) ∧
      ((webhookWith lib (.fresh h) body).rw.status ≠ some 200 →
        (webhookWith lib (.fresh h) body).rw.header = h ∧
          ((webhookWith lib (.fresh h) body).rw.status = some 400 →
            (webhookWith lib (.fresh h) body).rw.sent = h)) := by
  rcases webhookWith_cases lib h body with ⟨hr, _⟩ | ⟨hr, _⟩ | ⟨hr, _⟩
  · rw [hr]
    simp [successResponse, header_get_set]
  · rw [hr]
    simp [failureResponse, hh]
  · rw [hr]
    simp [ResponseWriter.fresh, Header.Get]

/-- The header property on `goodBody`, from an empty header map. -/
theorem content_type_iff_success_witness :
    Header.Get "Content-Type" [] = none ∧
      ((Header.Get "Content-Type" (webhookWith goLibrary (.fresh []) goodBody).rw.sent =
          some "application/json" ↔
        (webhookWith goLibrary (.fresh []) goodBody).rw.status = some 200) ∧
        ((webhookWith goLibrary (.fresh []) goodBody).rw.status = some 200 →
          (webhookWith goLibrary (.fresh []) goodBody).rw.sent =
            Header.Set "Content-Type" "application/json" []) ∧
        ((webhookWith goLibrary (.fresh []) goodBody).rw.status ≠ some 200 →
          (webhookWith goLibrary (.fresh []) goodBody).rw.header = [] ∧
            ((webhookWith goLibrary (.fresh []) goodBody).rw.status = some 400 →
              (webhookWith goLibrary (.fresh []) goodBody).rw.sent = []))) :=
  ⟨rfl, content_type_iff_success goLibrary [] goodBody rfl⟩

/-- C7: when the body decodes into a request whose top-level parameters lack one of the keys
`city`, `gender`, `age`, the handler answers 400 and stops after `GetParams`; it does not
reach status 200 with a defaulted field. -/
theorem webhook_missing_field (h : Header) (body : String) (r : Request)
    (hd : Decode body = .ok (some r))
    (hmiss : ParamMap.get "city" r.queryResult.parameters = none ∨
      ParamMap.get "gender" r.queryResult.parameters = none ∨
      ParamMap.get "age" r.queryResult.parameters = none) :
    (webhook (.fresh h) body).rw.status = some 400 ∧
      (webhook (.fresh h) body).rw.status ≠ some 200 ∧
      (webhook (.fresh h) body).rw.body = "" ∧
      (webhook (.fresh h) body).calls = [.decode, .getParams, .closeBody] := by
  obtain ⟨e, he⟩ := coerceParams_error_of_missing _ hmiss
  have hd2 : goLibrary.Decode body = .ok (some r) := hd
  have hp2 : goLibrary.GetParams (some r) params.zero = .err e := by
    simp [goLibrary, GetParams, he]
  unfold webhook
  rw [webhookWith_getParams_error goLibrary _ body e (some r) hd2 hp2, failure_write]
  exact ⟨rfl, by simp [failureResponse], rfl, rfl⟩

/-- The missing key on `missingAgeBody`, which carries a well-formed context. -/
theorem webhook_missing_field_witness :
    Decode missingAgeBody = .ok (some missingAgeRequest) ∧
      (ParamMap.get "city" missingAgeRequest.queryResult.parameters = none ∨
        ParamMap.get "gender" missingAgeRequest.queryResult.parameters = none ∨
        ParamMap.get "age" missingAgeRequest.queryResult.parameters = none) ∧
      ((webhook (.fresh []) missingAgeBody).rw.status = some 400 ∧
        (webhook (.fresh []) missingAgeBody).rw.status ≠ some 200 ∧
        (webhook (.fresh []) missingAgeBody).rw.body = "" ∧
        (webhook (.fresh []) missingAgeBody).calls = [.decode, .getParams, .closeBody]) :=
  ⟨rfl, Or.inr (Or.inr rfl),
    webhook_missing_field [] missingAgeBody missingAgeRequest rfl (Or.inr (Or.inr rfl))⟩

/-- Two runs that are neither a success nor a panic leave the same response, whichever
step failed in each: status 400, empty body, and the header map the handler received. -/
theorem failures_indistinguishable (lib : Library) (h : Header) (b1 b2 : String)
    (h1 : (webhookWith lib (.fresh h) b1).rw.status ≠ some 200)
    (n1 : (webhookWith lib (.fresh h) b1).panicked = false)
    (h2 : (webhookWith lib (.fresh h) b2).rw.status ≠ some 200)
    (n2 : (webhookWith lib (.fresh h) b2).panicked = false) :
    (webhookWith lib (.fresh h) b1).rw = (webhookWith lib (.fresh h) b2).rw ∧
      (webhookWith lib (.fresh h) b1).rw.status = some 400 ∧
      (webhookWith lib (.fresh h) b1).rw.body = "" ∧
      (webhookWith lib (.fresh h) b1).rw.sent = h ∧
      (webhookWith lib (.fresh h) b1).rw.header = h := by
  have key : ∀ b, (webhookWith lib (.fresh h) b).rw.status ≠ some 200 →
      (webhookWith lib (.fresh h) b).panicked = false →
      (webhookWith lib (.fresh h) b).rw = failureResponse h := by
    intro b hs hn
    rcases webhookWith_cases lib h b with ⟨hr, _⟩ | ⟨hr, _⟩ | ⟨_, hp⟩
    · rw [hr] at hs
      exact absurd rfl hs
    · exact hr
    · rw [hp] at hn
      cases hn
  rw [key b1 h1 n1, key b2 h2 n2]
  exact ⟨rfl, rfl, rfl, rfl, rfl⟩

/-- The two failing runs compared on concrete bodies. -/
theorem failures_indistinguishable_example :
    (webhookWith goLibrary (.fresh []) truncatedBody).rw.status ≠ some 200 ∧
      (webhookWith goLibrary (.fresh []) truncatedBody).panicked = false ∧
      (webhookWith goLibrary (.fresh []) otherContextBody).rw.status ≠ some 200 ∧
      (webhookWith goLibrary (.fresh []) otherContextBody).panicked = false ∧
      ((webhookWith goLibrary (.fresh []) truncatedBody).rw =
          (webhookWith goLibrary (.fresh []) otherContextBody).rw ∧
        (webhookWith goLibrary (.fresh []) truncatedBody).rw.status = some 400 ∧
        (webhookWith goLibrary (.fresh []) truncatedBody).rw.body = "" ∧
        (webhookWith goLibrary (.fresh []) truncatedBody).rw.sent = [] ∧
        (webhookWith goLibrary (.fresh []) truncatedBody).rw.header = []) :=
  ⟨by decide, by decide, by decide, by decide,
    failures_indistinguishable goLibrary [] truncatedBody otherContextBody
      (by decide) (by decide) (by decide) (by decide)⟩

/-- C8 fails on the body `null`: its run stops in the top-level parameter extraction, as a
panic with no status written, while a body the decoder rejects gets status 400; the two
failures leave different responses. -/
theorem null_failure_differs :
    (webhook (.fresh []) "null").calls = [.decode, .getParams, .closeBody] ∧
      (webhook (.fresh []) "null").rw.status = none ∧
      (webhook (.fresh []) truncatedBody).calls = [.decode] ∧
      (webhook (.fresh []) truncatedBody).rw.status = some 400 ∧
      (webhook (.fresh []) "null").rw ≠ (webhook (.fresh []) truncatedBody).rw :=
  ⟨by decide, by decide, by decide, by decide, by decide⟩

/-- C9: the handler started on variables in any state gives the run it gives on its body
alone: two invocations with the same body, the second entered with whatever the first left
in `err`, `dfr` and `p`, give the same response (status, headers, body) and the same calls,
because every variable is declared anew before it is read. -/
theorem webhook_twice_same (lib : StorageLibrary) (h : Header) (body : String)
    (first second : Vars) :
    webhookOn lib first (.fresh h) body = webhookOn lib second (.fresh h) body ∧
      webhookOn lib second (.fresh h) body = webhookWith lib.toLibrary (.fresh h) body := by
  have key : ∀ v : Vars, webhookOn lib v (.fresh h) body =
      webhookWith lib.toLibrary (.fresh h) body := by
    intro v
    simp only [webhookOn, webhookWith, StorageLibrary.toLibrary, Vars.declareErr,
      Vars.declareDfr, Vars.declareP]
  exact ⟨(key first).trans (key second).symm, key second⟩

/-- The empty object sent after `goodBody`: the pointer `dfr` left by the first request would
make the decoder fill the old request again, yet the second run is the one of the empty
object alone, a 400. -/
theorem webhook_twice_same_witness :
    DecodeInto usedVars.dfr "\x7b\x7d" = .ok (some goodRequest) ∧
      (webhookOn goStorageLibrary zeroVars (.fresh []) "\x7b\x7d" =
          webhookOn goStorageLibrary usedVars (.fresh []) "\x7b\x7d" ∧
        webhookOn goStorageLibrary usedVars (.fresh []) "\x7b\x7d" =
          webhookWith goStorageLibrary.toLibrary (.fresh []) "\x7b\x7d") ∧
      (webhookOn goStorageLibrary usedVars (.fresh []) "\x7b\x7d").rw.status = some 400 :=
  ⟨rfl, webhook_twice_same goStorageLibrary [] "\x7b\x7d" zeroVars usedVars, by decide⟩

/-- C10: two bodies whose requests carry the same contexts and whose top-level parameters
both extract get the same run of the handler, and its status is 200 exactly when the
context `my-awesome-context` is present and its parameters extract. -/
theorem webhook_ignores_top_level_values (h : Header) (b1 b2 : String) (r1 r2 : Request)
    (p1 p2 : params)
    (hd1 : Decode b1 = .ok (some r1)) (hd2 : Decode b2 = .ok (some r2))
    (hctx : r1.queryResult.outputContexts = r2.queryResult.outputContexts)
    (hp1 : coerceParams r1.queryResult.parameters = .ok p1)
    (hp2 : coerceParams r2.queryResult.parameters = .ok p2) :
    webhook (.fresh h) b1 = webhook (.fresh h) b2 ∧
      ((webhook (.fresh h) b1).rw.status = some 200 ↔
        ∃ c q, findContext "my-awesome-context" r1.queryResult.outputContexts = some c ∧
          coerceParams c.parameters = .ok q) := by
  have hg1 : goLibrary.Decode b1 = .ok (some r1) := hd1
  have hg2 : goLibrary.Decode b2 = .ok (some r2) := hd2
  have hq1 : goLibrary.GetParams (some r1) params.zero = .ok p1 := by
    simp [goLibrary, GetParams, hp1]
  have hq2 : goLibrary.GetParams (some r2) params.zero = .ok p2 := by
    simp [goLibrary, GetParams, hp2]
  unfold webhook
  rcases hf : findContext "my-awesome-context" r1.queryResult.outputContexts with _ | c
  · have hc1 : goLibrary.GetContext (some r1) "my-awesome-context" p1 =
        .err "context not found" := by
      simp [goLibrary, GetContext, hf]
    have hc2 : goLibrary.GetContext (some r2) "my-awesome-context" p2 =
        .err "context not found" := by
      simp [goLibrary, GetContext, ← hctx, hf]
    rw [webhookWith_getContext_error goLibrary _ b1 _ (some r1) p1 hg1 hq1 hc1,
      webhookWith_getContext_error goLibrary _ b2 _ (some r2) p2 hg2 hq2 hc2, failure_write]
    simp [failureResponse]
  · rcases hq : coerceParams c.parameters with e | q
    · have hc1 : goLibrary.GetContext (some r1) "my-awesome-context" p1 = .err e := by
        simp [goLibrary, GetContext, hf, hq]
      have hc2 : goLibrary.GetContext (some r2) "my-awesome-context" p2 = .err e := by
        simp [goLibrary, GetContext, ← hctx, hf, hq]
      rw [webhookWith_getContext_error goLibrary _ b1 _ (some r1) p1 hg1 hq1 hc1,
        webhookWith_getContext_error goLibrary _ b2 _ (some r2) p2 hg2 hq2 hc2, failure_write]
      simp [failureResponse, hq]
    · have hc1 : goLibrary.GetContext (some r1) "my-awesome-context" p1 = .ok q := by
        simp [goLibrary, GetContext, hf, hq]
      have hc2 : goLibrary.GetContext (some r2) "my-awesome-context" p2 = .ok q := by
        simp [goLibrary, GetContext, ← hctx, hf, hq]
      rw [webhookWith_ok goLibrary _ b1 (some r1) p1 q hg1 hq1 hc1,
        webhookWith_ok goLibrary _ b2 (some r2) p2 q hg2 hq2 hc2, success_write]
      simp [successResponse, hq]

/-- The bodies `goodBody` and `otherParamsBody` differ only in their top-level parameters. -/
theorem webhook_ignores_top_level_values_witness :
    Decode goodBody = .ok (some goodRequest) ∧
      Decode otherParamsBody = .ok (some otherParamsRequest) ∧
      goodRequest.queryResult.outputContexts = otherParamsRequest.queryResult.outputContexts ∧
      coerceParams goodRequest.queryResult.parameters =
        .ok { City := "Paris", Gender := "f", Age := 30 } ∧
      coerceParams otherParamsRequest.queryResult.parameters =
        .ok { City := "Oslo", Gender := "x", Age := 7 } ∧
      (webhook (.fresh []) goodBody = webhook (.fresh []) otherParamsBody ∧
        ((webhook (.fresh []) goodBody).rw.status = some 200 ↔
          ∃ c q, findContext "my-awesome-context" goodRequest.queryResult.outputContexts =
              some c ∧
            coerceParams c.parameters = .ok q)) :=
  ⟨rfl, rfl, rfl, rfl, rfl,
    webhook_ignores_top_level_values [] goodBody otherParamsBody goodRequest otherParamsRequest
      _ _ rfl rfl rfl rfl rfl⟩

end Dialogflow
